import Mathlib

/-!
Shallow embedding of the GymApp core data model and operations, and proofs
of the specification claims about them.

Source files embedded here:
- program store (`backfillDefaultAssignments`, `DEFAULT_PROGRAM_BLUEPRINT`)
- workout session store (`getOrCreateSession`, `addSet`, `removeSet`, ...)
- Google Sheets sync adapter (`deleteSessionFromSheet`, `pullAll`)
- Settings page JSON backup handlers (`handleExportJson`, `handleImportJson`)
- text export formatter (`formatSet`)

Modelling conventions:
- TypeScript `number` fields are modelled as `Nat` where the code only ever
  compares them for equality (day numbers, counters) and as `Rat` where
  arithmetic comparisons matter (weights, multipliers).
- `string | null` is `Option String`; JavaScript truthiness of such a value
  (`if (x)`) is `x` being `some s` with `s` nonempty, and truthiness of a
  number is it being nonzero.
- JavaScript arrays are `List`s; `Array.prototype.map/filter/find/findIndex`
  become the corresponding `List` operations.
-/

/-- The 12 muscle group values of the `MuscleGroup` union type. -/
inductive MuscleGroup where
  | back | biceps | rear_delts | abs | chest | shoulders
  | triceps | legs | hamstring | calves | quads | traps
deriving DecidableEq, Repr

/-- One entry of `DEFAULT_PROGRAM_BLUEPRINT`: a muscle group with the
exercise id assigned to that slot position by default. -/
structure BlueprintEntry where
  muscleGroup : MuscleGroup
  exerciseId : String
deriving DecidableEq, Repr

/-- `WorkoutSlot`: a position within a day's program.  `exerciseId = none`
models the TypeScript value `null` ("unassigned"). -/
structure WorkoutSlot where
  id : String
  muscleGroup : MuscleGroup
  exerciseId : Option String
deriving DecidableEq, Repr

/-- `ProgramDay`: one day of the 7-day program. -/
structure ProgramDay where
  dayNumber : Nat
  label : String
  slots : List WorkoutSlot
deriving DecidableEq, Repr

/-- `DEFAULT_PROGRAM_BLUEPRINT` from the program store: the hardcoded
day-number-indexed table of default slot assignments.  Lookup of a day
number absent from the record yields `undefined` in the source, modelled
here as the empty list (the source only ever tests the lookup result for
`!blueprint || blueprint.length === 0`, which identifies the two). -/
def DEFAULT_PROGRAM_BLUEPRINT (d : Nat) : List BlueprintEntry :=
  if d = 1 then
    [⟨.back, "seed-back-1"⟩, ⟨.back, "seed-back-2"⟩, ⟨.biceps, "seed-biceps-1"⟩,
     ⟨.rear_delts, "seed-rear-delts-1"⟩, ⟨.abs, "seed-abs-1"⟩]
  else if d = 2 then
    [⟨.chest, "seed-chest-1"⟩, ⟨.shoulders, "seed-shoulders-2"⟩, ⟨.chest, "seed-chest-2"⟩,
     ⟨.shoulders, "seed-shoulders-1"⟩, ⟨.triceps, "seed-triceps-1"⟩]
  else if d = 3 then
    [⟨.legs, "seed-legs-1"⟩, ⟨.hamstring, "seed-hamstring-1"⟩, ⟨.legs, "seed-legs-2"⟩,
     ⟨.calves, "seed-calves-1"⟩]
  else if d = 4 then []
  else if d = 5 then
    [⟨.legs, "seed-legs-3"⟩, ⟨.back, "seed-back-1"⟩, ⟨.back, "seed-back-3"⟩,
     ⟨.biceps, "seed-biceps-2"⟩, ⟨.traps, "seed-traps-1"⟩, ⟨.abs, "seed-abs-1"⟩]
  else if d = 6 then
    [⟨.chest, "seed-chest-1"⟩, ⟨.shoulders, "seed-shoulders-3"⟩, ⟨.chest, "seed-chest-3"⟩,
     ⟨.shoulders, "seed-shoulders-1"⟩, ⟨.triceps, "seed-triceps-2"⟩]
  else if d = 7 then
    [⟨.legs, "seed-legs-1"⟩, ⟨.hamstring, "seed-hamstring-2"⟩, ⟨.quads, "seed-quads-1"⟩,
     ⟨.calves, "seed-calves-1"⟩]
  else []

/-- JavaScript truthiness of a `string | null` value: `null`, `undefined`
and the empty string are falsy, every other string is truthy. -/
def strTruthy : Option String → Bool
  | none => false
  | some s => !(s == "")

/-- The per-slot body of `backfillDefaultAssignments`: the source maps
`day.slots.map((slot, index) => ...)` pairing the slot at index `i` with
`blueprint[i]`; this structural recursion walks the two lists in step, so
the head of the blueprint list is exactly `blueprint[index]` for the head
slot.  Per slot: a truthy `exerciseId` is returned unchanged; otherwise if
a blueprint entry exists at this index and its muscle group equals the
slot's, the blueprint's exercise id is written; otherwise the slot is
returned unchanged. -/
def backfillSlots : List BlueprintEntry → List WorkoutSlot → List WorkoutSlot
  | _, [] => []
  | [], slot :: rest => slot :: backfillSlots [] rest
  | e :: bs, slot :: rest =>
      (if strTruthy slot.exerciseId then slot
       else if slot.muscleGroup = e.muscleGroup then
         { slot with exerciseId := some e.exerciseId }
       else slot) :: backfillSlots bs rest

/-- The per-day body of `backfillDefaultAssignments`: a day whose blueprint
lookup is missing or empty is returned unchanged; otherwise its slots are
rewritten by `backfillSlots`. -/
def backfillDay (day : ProgramDay) : ProgramDay :=
  let blueprint := DEFAULT_PROGRAM_BLUEPRINT day.dayNumber
  if blueprint.isEmpty then day
  else { day with slots := backfillSlots blueprint day.slots }

/-- `backfillDefaultAssignments` from the program store: repair a persisted
`ProgramDay` list by backfilling default exercise assignments day by day. -/
def backfillDefaultAssignments (days : List ProgramDay) : List ProgramDay :=
  days.map backfillDay

theorem backfillSlots_get? (bp : List BlueprintEntry) (slots : List WorkoutSlot) (j : Nat) :
    (backfillSlots bp slots).get? j = (slots.get? j).map (fun slot =>
      match bp.get? j with
      | none => slot
      | some e =>
          if strTruthy slot.exerciseId then slot
          else if slot.muscleGroup = e.muscleGroup then
            { slot with exerciseId := some e.exerciseId }
          else slot) := by
  induction slots generalizing bp j with
  | nil => cases bp <;> simp [backfillSlots]
  | cons slot rest ih =>
    cases bp with
    | nil =>
      cases j with
      | zero => simp [backfillSlots]
      | succ n => simpa [backfillSlots] using ih [] n
    | cons e bs =>
      cases j with
      | zero => simp [backfillSlots]
      | succ n => simpa [backfillSlots] using ih bs n

theorem backfillSlots_idem (bp : List BlueprintEntry) (slots : List WorkoutSlot) :
    backfillSlots bp (backfillSlots bp slots) = backfillSlots bp slots := by
  induction slots generalizing bp with
  | nil => cases bp <;> rfl
  | cons slot rest ih =>
    cases bp with
    | nil => simp [backfillSlots, ih]
    | cons e bs =>
      simp only [backfillSlots]
      refine congrArg₂ _ ?_ (ih bs)
      by_cases h : strTruthy slot.exerciseId
      · simp [h]
      · by_cases hm : slot.muscleGroup = e.muscleGroup
        · simp only [h, Bool.false_eq_true, if_false, hm, if_true]
          by_cases ht : strTruthy (some e.exerciseId)
          · simp [ht]
          · simp [ht, hm]
        · simp [h, hm]

theorem backfillDay_idem (day : ProgramDay) : backfillDay (backfillDay day) = backfillDay day := by
  unfold backfillDay
  by_cases h : (DEFAULT_PROGRAM_BLUEPRINT day.dayNumber).isEmpty
  · simp [h]
  · simp [h, backfillSlots_idem]

theorem backfillDay_passthrough (day : ProgramDay)
    (h : DEFAULT_PROGRAM_BLUEPRINT day.dayNumber = []) : backfillDay day = day := by
  unfold backfillDay
  simp [h]

/-- C4: Program Backfill is idempotent — applying `backfillDefaultAssignments`
twice to any `ProgramDay` list produces the same result as applying it once —
and every day whose `dayNumber` has no blueprint entry (or an empty one)
passes through unchanged. -/
theorem c4_backfill_idempotent_and_passthrough :
    (∀ days : List ProgramDay,
       backfillDefaultAssignments (backfillDefaultAssignments days)
         = backfillDefaultAssignments days)
    ∧ (∀ (days : List ProgramDay) (j : Nat) (day : ProgramDay),
         days.get? j = some day →
         DEFAULT_PROGRAM_BLUEPRINT day.dayNumber = [] →
         (backfillDefaultAssignments days).get? j = some day) := by
  constructor
  · intro days
    unfold backfillDefaultAssignments
    rw [List.map_map]
    exact List.map_congr_left (fun day _ => backfillDay_idem day)
  · intro days j day hget hbp
    unfold backfillDefaultAssignments
    rw [List.get?_map, hget, Option.map_some']
    rw [backfillDay_passthrough day hbp]

/-- A user-added day (day number 9, not in the blueprint) used to witness C4. -/
def extraDay : ProgramDay := ⟨9, "EXTRA", [⟨"sx", .back, none⟩]⟩

theorem c4_backfill_idempotent_and_passthrough_witness :
    backfillDefaultAssignments (backfillDefaultAssignments [extraDay])
        = backfillDefaultAssignments [extraDay]
    ∧ (backfillDefaultAssignments [extraDay]).get? 0 = some extraDay :=
  ⟨c4_backfill_idempotent_and_passthrough.1 [extraDay],
   c4_backfill_idempotent_and_passthrough.2 [extraDay] 0 extraDay rfl rfl⟩

/-- `WorkoutSet`: one logged set.  `weight` and `multiplier` are optional
JavaScript numbers, modelled as `Option Rat`. -/
structure WorkoutSet where
  id : String
  reps : Nat
  weight : Option Rat
  multiplier : Option Rat
deriving DecidableEq, Repr

/-- `SessionExercise`: the sets logged for one program slot of a session. -/
structure SessionExercise where
  slotId : String
  exerciseId : String
  sets : List WorkoutSet
deriving DecidableEq, Repr

/-- `WorkoutSession`: one logged workout instance. -/
structure WorkoutSession where
  id : String
  date : String
  dayNumber : Nat
  dayLabel : String
  exercises : List SessionExercise
  completed : Bool
  completedAt : Option String
deriving DecidableEq, Repr

/-- The persisted part of the workout store state (`WorkoutState` in the
source): the session list and the current-day cursor. -/
structure WorkoutState where
  sessions : List WorkoutSession
  currentDayNumber : Nat
deriving DecidableEq, Repr

/-- `getOrCreateSession` from the workout store.  The ambient values the
source obtains from its environment are passed explicitly: `today` is
`getToday()` and `newId` is the `generateId()` result used if a session
must be created.  Returns the session together with the updated state. -/
def getOrCreateSession (today newId : String) (dayNumber : Nat) (dayLabel : String)
    (st : WorkoutState) : WorkoutSession × WorkoutState :=
  match st.sessions.find? (fun s => s.date == today && s.dayNumber == dayNumber) with
  | some existing => (existing, st)
  | none =>
      let session : WorkoutSession :=
        { id := newId, date := today, dayNumber := dayNumber, dayLabel := dayLabel
          exercises := [], completed := false, completedAt := none }
      (session, { st with sessions := st.sessions ++ [session] })

/-- The exercise-list update of `addSet`: the source finds the first entry
matching `(slotId, exerciseId)` with `findIndex` and replaces it with a copy
whose `sets` has the new set appended; if no entry matches, a new entry with
the new set as its only element is appended at the end.  This structural
recursion performs the same replacement at the first matching position. -/
def addSetEntry (slotId exerciseId : String) (newSet : WorkoutSet) :
    List SessionExercise → List SessionExercise
  | [] => [{ slotId := slotId, exerciseId := exerciseId, sets := [newSet] }]
  | e :: rest =>
      if e.slotId == slotId && e.exerciseId == exerciseId then
        { e with sets := e.sets ++ [newSet] } :: rest
      else e :: addSetEntry slotId exerciseId newSet rest

/-- The per-session body of `addSet`'s `sessions.map`: only the session
with the matching id gets the new set. -/
def addSetSession (sessionId slotId exerciseId : String) (newSet : WorkoutSet)
    (s : WorkoutSession) : WorkoutSession :=
  if s.id == sessionId then
    { s with exercises := addSetEntry slotId exerciseId newSet s.exercises }
  else s

/-- `addSet` from the workout store.  `newId` is the `generateId()` result
for the new set; `reps`, `weight` and `multiplier` are the caller's set
data (the set fields without id). -/
def addSet (sessionId slotId exerciseId : String) (reps : Nat)
    (weight multiplier : Option Rat) (newId : String) (st : WorkoutState) : WorkoutState :=
  { st with sessions := st.sessions.map (addSetSession sessionId slotId exerciseId
      ({ id := newId, reps := reps, weight := weight, multiplier := multiplier })) }

/-- The exercise-list update of `removeSet`: filter the set with the given
id out of every entry with the given `slotId`, then drop entries whose set
list became (or already was) empty. -/
def removeSetExercises (slotId setId : String) (l : List SessionExercise) :
    List SessionExercise :=
  (l.map (fun e =>
    if e.slotId == slotId then
      { e with sets := e.sets.filter (fun x => !(x.id == setId)) }
    else e)).filter (fun e => !e.sets.isEmpty)

/-- The per-session body of `removeSet`'s `sessions.map`. -/
def removeSetSession (sessionId slotId setId : String) (s : WorkoutSession) : WorkoutSession :=
  if s.id == sessionId then
    { s with exercises := removeSetExercises slotId setId s.exercises }
  else s

/-- `removeSet` from the workout store. -/
def removeSet (sessionId slotId setId : String) (st : WorkoutState) : WorkoutState :=
  { st with sessions := st.sessions.map (removeSetSession sessionId slotId setId) }

/-- Modelled from the spec: the workout store's `deleteSessions(ids)` bulk
delete.  `CalendarPage.tsx` obtains `deleteSessions` from the workout store
and calls it with the selected date's session ids, but the store revision
under `src/` predates the operation and does not contain its body; the spec
describes it as a pure bulk-delete that removes the sessions whose ids are
in the list. -/
def deleteSessions (ids : List String) (st : WorkoutState) : WorkoutState :=
  { st with sessions := st.sessions.filter (fun s => !(ids.contains s.id)) }

/-- Number of sessions in the store for a given `(date, dayNumber)` pair. -/
def sessionKeyCount (st : WorkoutState) (date : String) (d : Nat) : Nat :=
  (st.sessions.filter (fun s => s.date == date && s.dayNumber == d)).length

/-- C2: idempotent get-or-create.  If the store satisfies the at-most-one-
session-per-`(date, dayNumber)` invariant, then calling `getOrCreateSession`
twice on the same calendar day (same `getToday()` value) and day number
returns a session with the same id both times, afterwards exactly one
session for `(today, dayNumber)` exists in the collection, and the
invariant still holds (so at most one session per pair ever exists). -/
theorem c2_get_or_create_session_idempotent
    (st : WorkoutState) (today id1 id2 label : String) (d : Nat)
    (hu : ∀ date dn, sessionKeyCount st date dn ≤ 1) :
    ((getOrCreateSession today id2 d label
        (getOrCreateSession today id1 d label st).2).1).id
      = ((getOrCreateSession today id1 d label st).1).id
    ∧ sessionKeyCount (getOrCreateSession today id2 d label
        (getOrCreateSession today id1 d label st).2).2 today d = 1
    ∧ ∀ date dn, sessionKeyCount (getOrCreateSession today id2 d label
        (getOrCreateSession today id1 d label st).2).2 date dn ≤ 1 := by
  cases h : st.sessions.find? (fun s => s.date == today && s.dayNumber == d) with
  | some s =>
    have hmem : s ∈ st.sessions := List.mem_of_find?_eq_some h
    have hps := List.find?_some h
    have hcall : getOrCreateSession today id1 d label st = (s, st) := by
      simp [getOrCreateSession, h]
    have hcall2 : getOrCreateSession today id2 d label st = (s, st) := by
      simp [getOrCreateSession, h]
    rw [hcall]
    simp only [hcall2]
    refine ⟨by trivial, ?_, hu⟩
    have hone : s ∈ st.sessions.filter (fun s => s.date == today && s.dayNumber == d) :=
      List.mem_filter.2 ⟨hmem, hps⟩
    have hpos : 0 < sessionKeyCount st today d := by
      unfold sessionKeyCount
      exact List.length_pos.2 (fun hnil => by simp [hnil] at hone)
    exact Nat.le_antisymm (hu today d) hpos
  | none =>
    have hnone := List.find?_eq_none.1 h
    set snew : WorkoutSession :=
      { id := id1, date := today, dayNumber := d, dayLabel := label
        exercises := [], completed := false, completedAt := none } with hsnew
    have hp : (fun s => s.date == today && s.dayNumber == d) snew = true := by
      simp [hsnew]
    have hcall : getOrCreateSession today id1 d label st
        = (snew, { st with sessions := st.sessions ++ [snew] }) := by
      simp [getOrCreateSession, h, hsnew]
    have hfind2 : (st.sessions ++ [snew]).find?
        (fun s => s.date == today && s.dayNumber == d) = some snew := by
      rw [List.find?_append, h]
      simp [hp]
    have hcall2 : getOrCreateSession today id2 d label
        { st with sessions := st.sessions ++ [snew] }
        = (snew, { st with sessions := st.sessions ++ [snew] }) := by
      simp [getOrCreateSession, hfind2]
    rw [hcall]
    simp only [hcall2]
    have hfilt : st.sessions.filter (fun s => s.date == today && s.dayNumber == d) = [] :=
      List.filter_eq_nil.2 (fun x hx => by simpa using hnone x hx)
    refine ⟨by trivial, ?_, ?_⟩
    · unfold sessionKeyCount
      simp [List.filter_append, hfilt, hp]
    · intro date dn
      unfold sessionKeyCount
      simp only [List.filter_append, List.length_append]
      by_cases hq : (fun s => s.date == date && s.dayNumber == dn) snew = true
      · have hd : date = today ∧ dn = d := by
          simp [hsnew] at hq
          exact ⟨hq.1.symm, hq.2.symm⟩
        obtain ⟨hd1, hd2⟩ := hd
        subst hd1; subst hd2
        simp [hfilt, hq]
      · have := hu date dn
        unfold sessionKeyCount at this
        simp only [List.filter_cons, List.filter_nil, hq]
        simpa using this

/-- Concrete date string used by witnesses. -/
def wDate : String := "2026-02-19"

/-- Concrete generated ids and label used by witnesses. -/
def wIdA : String := "id-a"

def wIdB : String := "id-b"

def wLabel : String := "PULL"

/-- The workout store's initial state: no sessions, current day 1. -/
def emptyWorkoutState : WorkoutState := { sessions := [], currentDayNumber := 1 }

theorem c2_get_or_create_session_idempotent_witness :
    ((getOrCreateSession wDate wIdB 1 wLabel
        (getOrCreateSession wDate wIdA 1 wLabel emptyWorkoutState).2).1).id
      = ((getOrCreateSession wDate wIdA 1 wLabel emptyWorkoutState).1).id
    ∧ sessionKeyCount (getOrCreateSession wDate wIdB 1 wLabel
        (getOrCreateSession wDate wIdA 1 wLabel emptyWorkoutState).2).2 wDate 1 = 1 := by
  have h := c2_get_or_create_session_idempotent emptyWorkoutState wDate wIdA wIdB wLabel 1
    (fun _ _ => Nat.zero_le 1)
  exact ⟨h.1, h.2.1⟩

/-- Slot used in the C3 counterexample: its `exerciseId` is the empty
string — non-null (so "set" in the claim's null/set dichotomy) but
JavaScript-falsy. -/
def cexSlot : WorkoutSlot := { id := "s1", muscleGroup := .back, exerciseId := some ("") }

/-- Day 1 with the single counterexample slot; the day-1 blueprint's first
entry is `(back, seed-back-1)`, which matches the slot's muscle group. -/
def cexDay : ProgramDay := { dayNumber := 1, label := "PULL", slots := [cexSlot] }

theorem c3_backfill_counterexample :
    cexSlot.exerciseId.isSome = true
    ∧ backfillDefaultAssignments [cexDay]
        = [{ cexDay with slots := [{ cexSlot with exerciseId := some ("seed-back-1") }] }]
    ∧ backfillDefaultAssignments [cexDay] ≠ [cexDay] := by
  refine ⟨rfl, by decide, by decide⟩

/-- C3 (amended): per-slot contract of Program Backfill.  For each day whose
blueprint entry is non-empty and each slot at index `j`: a slot whose
`exerciseId` is a non-empty string (JavaScript-truthy — not merely non-null)
is returned unchanged even if the blueprint disagrees; a slot whose
`exerciseId` is null or the empty string receives the blueprint entry's
exercise id exactly when an entry exists at index `j` with a muscle group
equal to the slot's, and is otherwise returned unchanged. -/
theorem c3_backfill_slot_contract :
    (∀ days : List ProgramDay, backfillDefaultAssignments days = days.map backfillDay)
    ∧ ∀ (day : ProgramDay) (j : Nat) (slot : WorkoutSlot),
        DEFAULT_PROGRAM_BLUEPRINT day.dayNumber ≠ [] →
        day.slots.get? j = some slot →
        ((strTruthy slot.exerciseId = true → (backfillDay day).slots.get? j = some slot)
         ∧ (strTruthy slot.exerciseId = false →
              ∀ e, (DEFAULT_PROGRAM_BLUEPRINT day.dayNumber).get? j = some e →
                ((e.muscleGroup = slot.muscleGroup →
                    (backfillDay day).slots.get? j
                      = some { slot with exerciseId := some e.exerciseId })
                 ∧ (e.muscleGroup ≠ slot.muscleGroup →
                      (backfillDay day).slots.get? j = some slot)))
         ∧ (strTruthy slot.exerciseId = false →
              (DEFAULT_PROGRAM_BLUEPRINT day.dayNumber).get? j = none →
              (backfillDay day).slots.get? j = some slot)) := by
  refine ⟨fun days => rfl, ?_⟩
  intro day j slot hbp hget
  have hne : (DEFAULT_PROGRAM_BLUEPRINT day.dayNumber).isEmpty = false := by
    cases hl : DEFAULT_PROGRAM_BLUEPRINT day.dayNumber with
    | nil => exact absurd hl hbp
    | cons a l => rfl
  have hslots : (backfillDay day).slots
      = backfillSlots (DEFAULT_PROGRAM_BLUEPRINT day.dayNumber) day.slots := by
    unfold backfillDay
    simp [hne]
  rw [hslots, backfillSlots_get?, hget, Option.map_some']
  refine ⟨fun ht => ?_, fun hf e he => ?_, fun hf he => ?_⟩
  · cases hbpj : (DEFAULT_PROGRAM_BLUEPRINT day.dayNumber).get? j <;> simp [ht]
  · rw [he]
    refine ⟨fun hm => ?_, fun hm => ?_⟩
    · simp only [hf, Bool.false_eq_true, if_false]
      rw [if_pos hm.symm]
    · simp only [hf, Bool.false_eq_true, if_false]
      rw [if_neg (fun hh => hm hh.symm)]
  · rw [he]

/-- An unassigned back slot and a day-1 program day holding it, used to
witness the backfill slot contract. -/
def wSlotA : WorkoutSlot := { id := "sa", muscleGroup := .back, exerciseId := none }

def wDay1 : ProgramDay := { dayNumber := 1, label := "PULL", slots := [wSlotA] }

theorem c3_backfill_slot_contract_witness :
    (backfillDay wDay1).slots.get? 0
      = some { wSlotA with exerciseId := some ("seed-back-1") } :=
  ((c3_backfill_slot_contract.2 wDay1 0 wSlotA (by decide) rfl).2.1 rfl
    ⟨.back, "seed-back-1"⟩ rfl).1 rfl


theorem addSetEntry_of_no_match (slotId exId : String) (ns : WorkoutSet)
    (l : List SessionExercise) (h : ∀ e ∈ l, e.slotId ≠ slotId) :
    addSetEntry slotId exId ns l
      = l ++ [{ slotId := slotId, exerciseId := exId, sets := [ns] }] := by
  induction l with
  | nil => rfl
  | cons e rest ih =>
    have he : e.slotId ≠ slotId := h e (List.mem_cons_self e rest)
    have hb : (e.slotId == slotId && e.exerciseId == exId) = false := by
      simp [he]
    simp [addSetEntry, hb, ih (fun x hx => h x (List.mem_cons_of_mem _ hx))]

theorem removeSetExercises_mem (slotId setId : String) (l : List SessionExercise)
    (e : SessionExercise) (he : e ∈ removeSetExercises slotId setId l) :
    (e.slotId = slotId → ∀ x ∈ e.sets, x.id ≠ setId) ∧ e.sets ≠ [] := by
  unfold removeSetExercises at he
  obtain ⟨hemem, hne⟩ := List.mem_filter.1 he
  have hnempty : e.sets ≠ [] := by
    intro hnil
    rw [hnil] at hne
    simp at hne
  refine ⟨?_, hnempty⟩
  intro hslot x hx
  obtain ⟨e0, he0, rfl⟩ := List.mem_map.1 hemem
  by_cases hsl : (e0.slotId == slotId) = true
  · rw [if_pos hsl] at hx
    have := (List.mem_filter.1 hx).2
    simpa using this
  · rw [if_neg hsl] at hslot
    exact absurd (beq_iff_eq.2 hslot) hsl

theorem removeSetExercises_subset_targets (slotId setId : String)
    (l : List SessionExercise) (e : SessionExercise)
    (he : e ∈ removeSetExercises slotId setId l) :
    ∃ e0 ∈ l, e.slotId = e0.slotId := by
  unfold removeSetExercises at he
  obtain ⟨hemem, _⟩ := List.mem_filter.1 he
  obtain ⟨e0, he0, rfl⟩ := List.mem_map.1 hemem
  refine ⟨e0, he0, ?_⟩
  by_cases hsl : (e0.slotId == slotId) = true
  · rw [if_pos hsl]
  · rw [if_neg hsl]

theorem removeSetExercises_addSetEntry (slotId exId nid : String)
    (reps : Nat) (w m : Option Rat) (l : List SessionExercise)
    (h : ∀ e ∈ l, e.slotId ≠ slotId) :
    ∀ e ∈ removeSetExercises slotId nid
        (addSetEntry slotId exId
          ({ id := nid, reps := reps, weight := w, multiplier := m }) l),
      e.slotId ≠ slotId := by
  intro e he
  rw [addSetEntry_of_no_match slotId exId _ l h] at he
  unfold removeSetExercises at he
  obtain ⟨hemem, hne⟩ := List.mem_filter.1 he
  obtain ⟨e0, he0, rfl⟩ := List.mem_map.1 hemem
  rcases List.mem_append.1 he0 with h1 | h2
  · have hsl : e0.slotId ≠ slotId := h e0 h1
    rw [if_neg (by simp [hsl])]
    exact hsl
  · have he0new : e0 = { slotId := slotId, exerciseId := exId, sets :=
        [{ id := nid, reps := reps, weight := w, multiplier := m }] } := by
      simpa using h2
    subst he0new
    simp at hne

/-- C5: set lifecycle cleanup.  `removeSet` removes the set with the given
id from the matching slot's `SessionExercise` entries of the matching
session and deletes any entry of that session whose set list is (or
becomes) empty; adding one set to a slot with no existing entry and then
removing it leaves zero `SessionExercise` entries for that slot; and the
no-empty-set-list invariant is preserved, so no `SessionExercise` with an
empty set list is ever kept in the collection. -/
theorem c5_remove_set_cleanup (st : WorkoutState) (sid slotId setId : String) :
    (∀ s' ∈ (removeSet sid slotId setId st).sessions, s'.id = sid →
       ∀ e ∈ s'.exercises,
         (e.slotId = slotId → ∀ x ∈ e.sets, x.id ≠ setId) ∧ e.sets ≠ [])
    ∧ (∀ (exId : String) (reps : Nat) (w m : Option Rat) (nid : String),
         (∀ s ∈ st.sessions, s.id = sid → ∀ e ∈ s.exercises, e.slotId ≠ slotId) →
         ∀ s' ∈ (removeSet sid slotId nid
                  (addSet sid slotId exId reps w m nid st)).sessions,
           s'.id = sid → ∀ e ∈ s'.exercises, e.slotId ≠ slotId)
    ∧ ((∀ s ∈ st.sessions, ∀ e ∈ s.exercises, e.sets ≠ []) →
         ∀ s' ∈ (removeSet sid slotId setId st).sessions,
           ∀ e ∈ s'.exercises, e.sets ≠ []) := by
  refine ⟨?_, ?_, ?_⟩
  · intro s' hs' hid e he
    simp only [removeSet, List.mem_map] at hs'
    obtain ⟨s, hs, rfl⟩ := hs'
    unfold removeSetSession at hid he
    by_cases hsid : (s.id == sid) = true
    · rw [if_pos hsid] at he
      exact removeSetExercises_mem slotId setId s.exercises e he
    · rw [if_neg hsid] at hid
      exact absurd (beq_iff_eq.2 hid) hsid
  · intro exId reps w m nid h s' hs' hid e he
    simp only [removeSet, addSet, List.mem_map] at hs'
    obtain ⟨t, ⟨s, hs, rfl⟩, rfl⟩ := hs'
    unfold removeSetSession addSetSession at hid he
    by_cases hsid : (s.id == sid) = true
    · have hids : s.id = sid := beq_iff_eq.1 hsid
      have hentries : ∀ e0 ∈ s.exercises, e0.slotId ≠ slotId := h s hs hids
      rw [if_pos hsid] at he
      split at he
      · exact removeSetExercises_addSetEntry slotId exId nid reps w m
          s.exercises hentries e he
      · next hcond => exact absurd hsid hcond
    · rw [if_neg hsid] at he hid
      rw [if_neg hsid] at he hid
      exact absurd (beq_iff_eq.2 hid) hsid
  · intro hinv s' hs' e he
    simp only [removeSet, List.mem_map] at hs'
    obtain ⟨s, hs, rfl⟩ := hs'
    unfold removeSetSession at he
    by_cases hsid : (s.id == sid) = true
    · rw [if_pos hsid] at he
      exact (removeSetExercises_mem slotId setId s.exercises e he).2
    · rw [if_neg hsid] at he
      exact hinv s hs e he

/-- Concrete ids for the C5 witness. -/
def wSid5 : String := "sess1"

def wSlot5 : String := "slotA"

def wSetId5 : String := "s1"

/-- Witness store: one session holding one entry with two sets. -/
def wSt5 : WorkoutState :=
  { sessions := [⟨"sess1", wDate, 1, "PULL",
      [⟨"slotA", "ex1", [⟨"s1", 10, none, none⟩, ⟨"s2", 8, none, none⟩]⟩],
      false, none⟩],
    currentDayNumber := 1 }

/-- The session as it stands after removing set `s1`. -/
def wSession5r : WorkoutSession :=
  ⟨"sess1", wDate, 1, "PULL", [⟨"slotA", "ex1", [⟨"s2", 8, none, none⟩]⟩], false, none⟩

def wEntry5 : SessionExercise := ⟨"slotA", "ex1", [⟨"s2", 8, none, none⟩]⟩

def wSet5 : WorkoutSet := ⟨"s2", 8, none, none⟩

theorem c5_remove_set_cleanup_witness :
    wSession5r ∈ (removeSet wSid5 wSlot5 wSetId5 wSt5).sessions
    ∧ wEntry5 ∈ wSession5r.exercises ∧ wSet5 ∈ wEntry5.sets
    ∧ wSet5.id ≠ wSetId5 ∧ wEntry5.sets ≠ [] := by
  have h := (c5_remove_set_cleanup wSt5 wSid5 wSlot5 wSetId5).1 wSession5r
    (by decide) rfl wEntry5 (by decide)
  exact ⟨by decide, by decide, by decide, h.1 rfl wSet5 (by decide), h.2⟩

/-- C9: bulk delete.  `deleteSessions` (modelled from the spec, see its doc
comment) removes exactly the sessions whose ids are in the list: no
surviving session has a listed id, every session with an unlisted id
survives, no session is added or reordered (the result is a sublist), and
the current-day cursor is untouched. -/
theorem c9_delete_sessions_exact (ids : List String) (st : WorkoutState) :
    (∀ s ∈ (deleteSessions ids st).sessions, s.id ∉ ids)
    ∧ (∀ s ∈ st.sessions, s.id ∉ ids → s ∈ (deleteSessions ids st).sessions)
    ∧ (deleteSessions ids st).sessions.Sublist st.sessions
    ∧ (deleteSessions ids st).currentDayNumber = st.currentDayNumber := by
  refine ⟨?_, ?_, ?_, rfl⟩
  · intro s hsm
    have := (List.mem_filter.1 hsm).2
    simpa using this
  · intro s hs hnot
    exact List.mem_filter.2 ⟨hs, by simpa using hnot⟩
  · exact List.filter_sublist _

/-- Sessions and store used by the C9 witness. -/
def wIdA9 : String := "A"

def wSessA : WorkoutSession := ⟨"A", wDate, 1, "PULL", [], true, none⟩

def wSessB : WorkoutSession := ⟨"B", wDate, 2, "PUSH", [], true, none⟩

def wSt9 : WorkoutState := { sessions := [wSessA, wSessB], currentDayNumber := 2 }

theorem c9_delete_sessions_exact_witness :
    wSessB ∈ (deleteSessions [wIdA9] wSt9).sessions
    ∧ wSessB.id ∉ [wIdA9]
    ∧ (deleteSessions [wIdA9] wSt9).currentDayNumber = wSt9.currentDayNumber := by
  have h := c9_delete_sessions_exact [wIdA9] wSt9
  have hmem := h.2.1 wSessB (by decide) (by decide)
  exact ⟨hmem, h.1 wSessB hmem, h.2.2.2⟩

/-- JavaScript truthiness of an optional number: `undefined` and `0` are
falsy, every other number is truthy. -/
def numTruthy : Option Rat → Bool
  | none => false
  | some q => !(q == 0)

/-- `formatSet` from the text export utility: branches on the truthiness of
`weight` and `multiplier` (with the extra `multiplier > 1` guard), not on
their presence. -/
def formatSet (s : WorkoutSet) : String :=
  if numTruthy s.weight && (numTruthy s.multiplier && decide (s.multiplier.getD 0 > 1)) then
    toString s.reps ++ " - " ++ toString (s.multiplier.getD 0) ++ "*" ++ toString (s.weight.getD 0)
  else if numTruthy s.weight then
    toString s.reps ++ " - " ++ toString (s.weight.getD 0)
  else
    toString s.reps

/-- C10: for every set whose `weight` field is present but equal to `0` (or
absent), `formatSet` returns only the reps string — the zero weight never
appears in the export text — and any `multiplier` given without a truthy
weight is ignored, because the formatter branches on the truthiness of
`weight`, not its presence. -/
theorem c10_format_set_zero_weight (s : WorkoutSet)
    (h : s.weight = some 0 ∨ s.weight = none) :
    formatSet s = toString s.reps := by
  rcases h with h | h <;> simp [formatSet, numTruthy, h]

/-- A set with zero weight and a multiplier, for the C10 witness. -/
def wSet10 : WorkoutSet := { id := "w10", reps := 12, weight := some 0, multiplier := some 2 }

theorem c10_format_set_zero_weight_witness :
    formatSet wSet10 = toString wSet10.reps ∧ formatSet wSet10 = "12" := by
  have h := c10_format_set_zero_weight wSet10 (Or.inl rfl)
  refine ⟨h, ?_⟩
  rw [h]
  rfl

/-- One remote sheet row: first cell the session id, second the session
JSON blob (`A2:B` region, header row excluded). -/
def SheetRow := String × String

/-- `deleteSessionFromSheet` from the sync adapter: read the id column,
locate the first row whose id cell equals `sessionId` (`indexOf`), and if
found issue a single row deletion at that index; a missing id is a no-op. -/
def deleteSessionFromSheet (sessionId : String) (rows : List (String × String)) :
    List (String × String) :=
  match rows.findIdx? (fun r => r.1 == sessionId) with
  | none => rows
  | some i => rows.eraseIdx i

/-- The batch-delete loop of `CalendarPage.handleDelete`: the selected
session ids are iterated in reverse array order, each iteration calling
`deleteSessionFromSheet` on the current sheet. -/
def handleDeleteSheetBatch (sessionIds : List String) (rows : List (String × String)) :
    List (String × String) :=
  sessionIds.reverse.foldl (fun acc sid => deleteSessionFromSheet sid acc) rows

theorem deleteSessionFromSheet_eq_filter (sid : String) (rows : List (String × String))
    (h : (rows.map Prod.fst).Nodup) :
    deleteSessionFromSheet sid rows = rows.filter (fun r => !(r.1 == sid)) := by
  induction rows with
  | nil => rfl
  | cons r t ih =>
    simp only [List.map_cons, List.nodup_cons] at h
    obtain ⟨hr1, hnt⟩ := h
    by_cases hr : (r.1 == sid) = true
    · have hsid : r.1 = sid := beq_iff_eq.1 hr
      have hfi : (r :: t).findIdx? (fun x => x.1 == sid) = some 0 := by
        simp [List.findIdx?_cons, hr]
      have htf : t.filter (fun x => !(x.1 == sid)) = t := by
        refine List.filter_eq_self.2 (fun x hx => ?_)
        have hxmem : x.1 ∈ List.map Prod.fst t := List.mem_map_of_mem Prod.fst hx
        have : x.1 ≠ sid := fun hxe => hr1 (by rw [hsid, ← hxe]; exact hxmem)
        simp [this]
      simp [deleteSessionFromSheet, hfi, List.filter_cons, hr, htf]
    · have hfi : (r :: t).findIdx? (fun x => x.1 == sid)
          = (t.findIdx? (fun x => x.1 == sid)).map (· + 1) := by
        simp [List.findIdx?_cons, hr]
      have iht := ih hnt
      cases hft : t.findIdx? (fun x => x.1 == sid) with
      | none =>
        have htt : t.filter (fun x => !(x.1 == sid)) = t := by
          rw [deleteSessionFromSheet, hft] at iht
          exact iht.symm
        simp [deleteSessionFromSheet, hfi, hft, List.filter_cons, hr, htt]
      | some i =>
        have hdel : t.eraseIdx i = t.filter (fun x => !(x.1 == sid)) := by
          rw [deleteSessionFromSheet, hft] at iht
          exact iht
        simp [deleteSessionFromSheet, hfi, hft, List.filter_cons, hr,
          List.eraseIdx_cons_succ, hdel]

theorem foldl_delete_eq_filter (l : List String) (rows : List (String × String))
    (h : (rows.map Prod.fst).Nodup) :
    l.foldl (fun acc sid => deleteSessionFromSheet sid acc) rows
      = rows.filter (fun r => !(l.contains r.1)) := by
  induction l generalizing rows with
  | nil => simp
  | cons a l2 ih =>
    rw [List.foldl_cons, deleteSessionFromSheet_eq_filter a rows h]
    have h2 : ((rows.filter (fun r => !(r.1 == a))).map Prod.fst).Nodup :=
      h.sublist ((List.filter_sublist rows).map Prod.fst)
    rw [ih _ h2, List.filter_filter]
    congr 1
    funext r
    simp only [List.contains_cons, Bool.not_or]
    rw [Bool.and_comm]

/-- C6: batch delete-order correctness.  When the selected session ids are
deleted by iterating in reverse order, each `deleteSessionFromSheet` call
re-locating the row by id before issuing a single row deletion by index,
then — provided the sheet's id column has no duplicates, as the upsert
`pushSession` maintains — exactly the rows whose ids were requested are
removed and every other row survives. -/
theorem c6_batch_delete_order_correct (sessionIds : List String)
    (rows : List (String × String)) (h : (rows.map Prod.fst).Nodup) :
    handleDeleteSheetBatch sessionIds rows
      = rows.filter (fun r => !(sessionIds.contains r.1)) := by
  rw [handleDeleteSheetBatch, foldl_delete_eq_filter _ _ h]
  congr 1
  funext r
  have hrev : (sessionIds.reverse.contains r.1) = (sessionIds.contains r.1) := by simp
  rw [hrev]

/-- The concrete sheet of the claim: rows 2-5 hold ids A, B, C, D. -/
def wSheet6 : List (String × String) :=
  [("A", "jsonA"), ("B", "jsonB"), ("C", "jsonC"), ("D", "jsonD")]

/-- The requested batch: delete sessions B and C. -/
def wBatch6 : List String := ["B", "C"]

theorem c6_batch_delete_order_correct_witness :
    handleDeleteSheetBatch wBatch6 wSheet6 = [("A", "jsonA"), ("D", "jsonD")] := by
  rw [c6_batch_delete_order_correct wBatch6 wSheet6 (by decide)]
  rfl

/-- A JSON value, as produced by `JSON.parse`.  Object fields keep their
insertion order, numbers are modelled as rationals. -/
inductive Json where
  | null
  | bool (b : Bool)
  | num (q : Rat)
  | str (s : String)
  | arr (elems : List Json)
  | obj (fields : List (String × Json))

/-- The parsed `gymapp-workouts` document's `state` part: the session list
(arbitrary parsed JSON payloads, stored verbatim by `pullAll`) and the
optional `currentDayNumber` field (`state?.currentDayNumber` may be
absent). -/
structure WorkoutsDoc where
  sessions : List Json
  currentDayNumber : Option Nat

/-- Local durable storage as `pullAll` sees it: the `gymapp-workouts` cell
viewed through its parsed document, and the four config cells
(`gymapp-exercises`, `gymapp-program`, `gymapp-metrics`, `gymapp-timer`)
as raw text blobs, `none` when a key is absent (or, for workouts,
unparseable). -/
structure LocalStore where
  workouts : Option WorkoutsDoc
  exercises : Option String
  program : Option String
  metrics : Option String
  timer : Option String

/-- The remote sheet as `pullAll` reads it: the `D2:G2` config row (a
possibly short list of cell strings, in the fixed order exercises, program,
metrics, timer) and the `A2:B10000` session rows, each second cell given as
its parse result (`none` for a missing, empty or unparseable blob, which
the source skips). -/
structure RemoteSheet where
  configRow : List String
  sessionRows : List (String × Option Json)

/-- `pullAll` from the sync adapter: each non-empty config cell overwrites
the corresponding local key and bumps the config count; every parseable
session row is collected, and when at least one session was parsed the
whole local session list is replaced while `currentDayNumber` is re-read
from the local workouts document (default 1), not from remote.  Returns
the updated store with the `(sessions, config)` counts. -/
def pullAll (remote : RemoteSheet) (st : LocalStore) : LocalStore × Nat × Nat :=
  let c0 := remote.configRow.getD 0 ""
  let c1 := remote.configRow.getD 1 ""
  let c2 := remote.configRow.getD 2 ""
  let c3 := remote.configRow.getD 3 ""
  let st1 := if c0 != "" then { st with exercises := some c0 } else st
  let st2 := if c1 != "" then { st1 with program := some c1 } else st1
  let st3 := if c2 != "" then { st2 with metrics := some c2 } else st2
  let st4 := if c3 != "" then { st3 with timer := some c3 } else st3
  let configCount := (if c0 != "" then 1 else 0) + (if c1 != "" then 1 else 0)
    + (if c2 != "" then 1 else 0) + (if c3 != "" then 1 else 0)
  let sessions := remote.sessionRows.filterMap Prod.snd
  if sessions.isEmpty then (st4, sessions.length, configCount)
  else
    let cdn := (st4.workouts.map (fun w => w.currentDayNumber.getD 1)).getD 1
    ({ st4 with workouts := some { sessions := sessions, currentDayNumber := some cdn } },
     sessions.length, configCount)

theorem pullAll_exercises (remote : RemoteSheet) (st : LocalStore) :
    ((pullAll remote st).1).exercises
      = (if remote.configRow.getD 0 "" != "" then some (remote.configRow.getD 0 "")
         else st.exercises) := by
  simp only [pullAll]
  by_cases h0 : remote.configRow[0]?.getD ("") = "" <;>
    by_cases h1 : remote.configRow[1]?.getD ("") = "" <;>
      by_cases h2 : remote.configRow[2]?.getD ("") = "" <;>
        by_cases h3 : remote.configRow[3]?.getD ("") = "" <;>
          by_cases he : (remote.sessionRows.filterMap Prod.snd).isEmpty = true <;>
            simp [h0, h1, h2, h3, he]

theorem pullAll_program (remote : RemoteSheet) (st : LocalStore) :
    ((pullAll remote st).1).program
      = (if remote.configRow.getD 1 "" != "" then some (remote.configRow.getD 1 "")
         else st.program) := by
  simp only [pullAll]
  by_cases h0 : remote.configRow[0]?.getD ("") = "" <;>
    by_cases h1 : remote.configRow[1]?.getD ("") = "" <;>
      by_cases h2 : remote.configRow[2]?.getD ("") = "" <;>
        by_cases h3 : remote.configRow[3]?.getD ("") = "" <;>
          by_cases he : (remote.sessionRows.filterMap Prod.snd).isEmpty = true <;>
            simp [h0, h1, h2, h3, he]

theorem pullAll_metrics (remote : RemoteSheet) (st : LocalStore) :
    ((pullAll remote st).1).metrics
      = (if remote.configRow.getD 2 "" != "" then some (remote.configRow.getD 2 "")
         else st.metrics) := by
  simp only [pullAll]
  by_cases h0 : remote.configRow[0]?.getD ("") = "" <;>
    by_cases h1 : remote.configRow[1]?.getD ("") = "" <;>
      by_cases h2 : remote.configRow[2]?.getD ("") = "" <;>
        by_cases h3 : remote.configRow[3]?.getD ("") = "" <;>
          by_cases he : (remote.sessionRows.filterMap Prod.snd).isEmpty = true <;>
            simp [h0, h1, h2, h3, he]

theorem pullAll_timer (remote : RemoteSheet) (st : LocalStore) :
    ((pullAll remote st).1).timer
      = (if remote.configRow.getD 3 "" != "" then some (remote.configRow.getD 3 "")
         else st.timer) := by
  simp only [pullAll]
  by_cases h0 : remote.configRow[0]?.getD ("") = "" <;>
    by_cases h1 : remote.configRow[1]?.getD ("") = "" <;>
      by_cases h2 : remote.configRow[2]?.getD ("") = "" <;>
        by_cases h3 : remote.configRow[3]?.getD ("") = "" <;>
          by_cases he : (remote.sessionRows.filterMap Prod.snd).isEmpty = true <;>
            simp [h0, h1, h2, h3, he]

theorem pullAll_workouts_empty (remote : RemoteSheet) (st : LocalStore)
    (he : (remote.sessionRows.filterMap Prod.snd).isEmpty = true) :
    ((pullAll remote st).1).workouts = st.workouts := by
  simp only [pullAll]
  by_cases h0 : remote.configRow[0]?.getD ("") = "" <;>
    by_cases h1 : remote.configRow[1]?.getD ("") = "" <;>
      by_cases h2 : remote.configRow[2]?.getD ("") = "" <;>
        by_cases h3 : remote.configRow[3]?.getD ("") = "" <;>
          simp [h0, h1, h2, h3, he]

theorem pullAll_workouts_nonempty (remote : RemoteSheet) (st : LocalStore)
    (he : (remote.sessionRows.filterMap Prod.snd).isEmpty = false) :
    ((pullAll remote st).1).workouts
      = some { sessions := remote.sessionRows.filterMap Prod.snd,
               currentDayNumber := some ((st.workouts.map
                 (fun w => w.currentDayNumber.getD 1)).getD 1) } := by
  simp only [pullAll]
  by_cases h0 : remote.configRow[0]?.getD ("") = "" <;>
    by_cases h1 : remote.configRow[1]?.getD ("") = "" <;>
      by_cases h2 : remote.configRow[2]?.getD ("") = "" <;>
        by_cases h3 : remote.configRow[3]?.getD ("") = "" <;>
          simp [h0, h1, h2, h3, he]

/-- C7: pull overwrite semantics.  For every remote state, `pullAll`
overwrites local collection storage only for those of the 4 config cells
that are non-empty — a collection whose config cell is empty (or missing)
is left byte-identical locally — and the locally tracked
`currentDayNumber` cursor is preserved from local state rather than taken
from remote. -/
theorem c7_pull_overwrite_semantics (remote : RemoteSheet) (st : LocalStore) :
    ((remote.configRow.getD 0 "" = "" → ((pullAll remote st).1).exercises = st.exercises)
     ∧ (remote.configRow.getD 0 "" ≠ "" →
          ((pullAll remote st).1).exercises = some (remote.configRow.getD 0 "")))
    ∧ ((remote.configRow.getD 1 "" = "" → ((pullAll remote st).1).program = st.program)
     ∧ (remote.configRow.getD 1 "" ≠ "" →
          ((pullAll remote st).1).program = some (remote.configRow.getD 1 "")))
    ∧ ((remote.configRow.getD 2 "" = "" → ((pullAll remote st).1).metrics = st.metrics)
     ∧ (remote.configRow.getD 2 "" ≠ "" →
          ((pullAll remote st).1).metrics = some (remote.configRow.getD 2 "")))
    ∧ ((remote.configRow.getD 3 "" = "" → ((pullAll remote st).1).timer = st.timer)
     ∧ (remote.configRow.getD 3 "" ≠ "" →
          ((pullAll remote st).1).timer = some (remote.configRow.getD 3 "")))
    ∧ (∀ w n, st.workouts = some w → w.currentDayNumber = some n →
         ∀ w2, ((pullAll remote st).1).workouts = some w2 →
           w2.currentDayNumber = some n) := by
  refine ⟨⟨?_, ?_⟩, ⟨?_, ?_⟩, ⟨?_, ?_⟩, ⟨?_, ?_⟩, ?_⟩
  · intro h
    rw [pullAll_exercises]
    rw [List.getD_eq_getElem?_getD] at h
    simp [h]
  · intro h
    rw [pullAll_exercises]
    rw [List.getD_eq_getElem?_getD] at h
    simp [h]
  · intro h
    rw [pullAll_program]
    rw [List.getD_eq_getElem?_getD] at h
    simp [h]
  · intro h
    rw [pullAll_program]
    rw [List.getD_eq_getElem?_getD] at h
    simp [h]
  · intro h
    rw [pullAll_metrics]
    rw [List.getD_eq_getElem?_getD] at h
    simp [h]
  · intro h
    rw [pullAll_metrics]
    rw [List.getD_eq_getElem?_getD] at h
    simp [h]
  · intro h
    rw [pullAll_timer]
    rw [List.getD_eq_getElem?_getD] at h
    simp [h]
  · intro h
    rw [pullAll_timer]
    rw [List.getD_eq_getElem?_getD] at h
    simp [h]
  · intro w n hw hn w2 hres
    cases he : (remote.sessionRows.filterMap Prod.snd).isEmpty with
    | true =>
      rw [pullAll_workouts_empty remote st he, hw] at hres
      injection hres with h2
      rw [← h2]
      exact hn
    | false =>
      rw [pullAll_workouts_nonempty remote st he] at hres
      injection hres with h2
      rw [← h2]
      simp [hw, hn]

/-- Concrete non-empty config cells for the C7 witness. -/
def wCellEx : String := "EX"

def wCellMet : String := "MET"

/-- Local workouts document with cursor day 5. -/
def wDoc7 : WorkoutsDoc := { sessions := [], currentDayNumber := some 5 }

/-- Local store before the pull: all five keys present. -/
def wSt7 : LocalStore :=
  { workouts := some wDoc7, exercises := some ("exold"), program := some ("progold"),
    metrics := some ("metold"), timer := some ("timold") }

/-- Remote with 2 populated and 2 empty config cells and one session row. -/
def wRemote7 : RemoteSheet :=
  { configRow := [wCellEx, "", wCellMet, ""],
    sessionRows := [("sid1", some Json.null)] }

/-- The workouts document `pullAll` writes back: remote sessions, local cursor. -/
def wDoc7r : WorkoutsDoc := { sessions := [Json.null], currentDayNumber := some 5 }

theorem c7_pull_overwrite_semantics_witness :
    ((pullAll wRemote7 wSt7).1).exercises = some wCellEx
    ∧ ((pullAll wRemote7 wSt7).1).program = wSt7.program
    ∧ ((pullAll wRemote7 wSt7).1).metrics = some wCellMet
    ∧ ((pullAll wRemote7 wSt7).1).timer = wSt7.timer
    ∧ wDoc7r.currentDayNumber = some 5 := by
  have h := c7_pull_overwrite_semantics wRemote7 wSt7
  refine ⟨h.1.2 (by decide), h.2.1.1 rfl, h.2.2.1.2 (by decide), h.2.2.2.1.1 rfl, ?_⟩
  exact h.2.2.2.2 wDoc7 5 rfl rfl wDoc7r rfl

/-- The semantic content of one localStorage cell, quotiented — as the
spec's round-trip law itself does — by JSON parsing: `jval j` stands for
any text that `JSON.parse` accepts with result `j`, and `raw s` for the
exact text `s` when `JSON.parse` rejects it. -/
inductive JDoc where
  | jval (j : Json)
  | raw (s : String)

/-- Durable key-value storage (localStorage), each present cell given by
its semantic content. -/
def Storage := String → Option JDoc

/-- `STORE_KEYS` from the sync adapter: the five fixed localStorage keys
covered by the JSON backup. -/
def STORE_KEYS : List String :=
  ["gymapp-workouts", "gymapp-exercises", "gymapp-program", "gymapp-metrics", "gymapp-timer"]

/-- The workouts store key, by name. -/
def kWorkouts : String := "gymapp-workouts"

/-- The exercises store key, by name. -/
def kExercises : String := "gymapp-exercises"

/-- `handleExportJson` from the Settings page: for each store key, a
present cell is parsed into the backup object (`backup[key] = JSON.parse
(raw)`); an absent or empty cell is skipped (`if (raw)`); a cell whose text
does not parse is exported as that text itself (`backup[key] = raw`, a
JSON string in the resulting document). -/
def handleExportJson (st : Storage) : List (String × Json) :=
  STORE_KEYS.filterMap (fun key =>
    match st key with
    | none => none
    | some (JDoc.raw s) => if s == "" then none else some (key, Json.str s)
    | some (JDoc.jval j) => some (key, j))

/-- The cell content written by one `handleImportJson` entry: a string
value is written verbatim (`localStorage.setItem(key, value)`), so the
cell afterwards holds whatever that text means under `JSON.parse`
(supplied as `parseJson`); any other value is written as
`JSON.stringify(value)`, whose parse is the value itself. -/
def importWriteCell (parseJson : String → Option Json) (v : Json) : JDoc :=
  match v with
  | Json.str s =>
      match parseJson s with
      | some j => JDoc.jval j
      | none => JDoc.raw s
  | v => JDoc.jval v

/-- `handleImportJson` from the Settings page: iterate the incoming
object's entries; every entry whose key is one of `STORE_KEYS` overwrites
that key's cell; all other keys are ignored. -/
def handleImportJson (parseJson : String → Option Json) (backup : List (String × Json))
    (st : Storage) : Storage :=
  backup.foldl (fun acc kv =>
    if STORE_KEYS.contains kv.1 then
      fun key => if key = kv.1 then some (importWriteCell parseJson kv.2) else acc key
    else acc) st

theorem handleExportJson_mem (st : Storage) :
    ∀ kv ∈ handleExportJson st, kv.1 ∈ STORE_KEYS
      ∧ (st kv.1 = some (JDoc.jval kv.2)
         ∨ ∃ s, kv.2 = Json.str s ∧ st kv.1 = some (JDoc.raw s) ∧ s ≠ "") := by
  intro kv hkv
  unfold handleExportJson at hkv
  obtain ⟨key, hkey, hf⟩ := List.mem_filterMap.1 hkv
  cases hst : st key with
  | none =>
    rw [hst] at hf
    have hf2 : (none : Option (String × Json)) = some kv := hf
    cases hf2
  | some d =>
    cases d with
    | jval j =>
      rw [hst] at hf
      have hf2 : some (key, j) = some kv := hf
      injection hf2 with h3
      subst h3
      exact ⟨hkey, Or.inl hst⟩
    | raw s =>
      rw [hst] at hf
      have hf2 : (if (s == "") = true then none
          else some (key, Json.str s)) = some kv := hf
      by_cases hs : (s == "") = true
      · rw [if_pos hs] at hf2
        cases hf2
      · rw [if_neg hs] at hf2
        injection hf2 with h3
        subst h3
        exact ⟨hkey, Or.inr ⟨s, rfl, hst, by simpa using hs⟩⟩

theorem handleImportJson_agree (parseJson : String → Option Json)
    (backup : List (String × Json)) (st acc : Storage)
    (hacc : ∀ key, acc key = st key)
    (hgood : ∀ kv ∈ backup, STORE_KEYS.contains kv.1 = true →
      some (importWriteCell parseJson kv.2) = st kv.1) :
    ∀ key, handleImportJson parseJson backup acc key = st key := by
  induction backup generalizing acc with
  | nil => exact hacc
  | cons kv rest ih =>
    intro key
    unfold handleImportJson
    rw [List.foldl_cons]
    by_cases hc : STORE_KEYS.contains kv.1 = true
    · rw [if_pos hc]
      refine ih _ (fun key2 => ?_)
        (fun kv2 h2 => hgood kv2 (List.mem_cons_of_mem _ h2)) key
      by_cases hk : key2 = kv.1
      · rw [if_pos hk, hk]
        exact hgood kv (List.mem_cons_self kv rest) hc
      · rw [if_neg hk]
        exact hacc key2
    · rw [if_neg hc]
      exact ih _ hacc (fun kv2 h2 => hgood kv2 (List.mem_cons_of_mem _ h2)) key

/-- C1: JSON backup round-trip.  For every storage state whose persisted
collection documents are genuine collection states — each present cell
either holds a document that is not a bare JSON string (the zustand
persist shape is an object `\x7bstate, version\x7d`), or holds unparseable
text (which is what `raw` means, stated as the `hraw` hypothesis) —
exporting the five collections with `handleExportJson` and importing the
resulting backup with `handleImportJson` writes every cell back to a state
semantically equal (equal up to non-semantic whitespace) to the original:
the composite is the identity on every key. -/
theorem c1_backup_round_trip (parseJson : String → Option Json) (st : Storage)
    (hraw : ∀ k s, st k = some (JDoc.raw s) → parseJson s = none)
    (hstr : ∀ k, k ∈ STORE_KEYS → ∀ s, st k ≠ some (JDoc.jval (Json.str s))) :
    ∀ key, handleImportJson parseJson (handleExportJson st) st key = st key := by
  refine handleImportJson_agree parseJson (handleExportJson st) st st (fun _ => rfl) ?_
  intro kv hkv _
  obtain ⟨hkey, hcell⟩ := handleExportJson_mem st kv hkv
  rcases hcell with hj | ⟨s, hvs, hcellraw, hne⟩
  · cases hv : kv.2 with
    | str s2 =>
      rw [hv] at hj
      exact absurd hj (hstr kv.1 hkey s2)
    | null => rw [hj, hv]; rfl
    | bool b => rw [hj, hv]; rfl
    | num q => rw [hj, hv]; rfl
    | arr elems => rw [hj, hv]; rfl
    | obj fields => rw [hj, hv]; rfl
  · rw [hvs, hcellraw]
    have hp := hraw kv.1 s hcellraw
    simp [importWriteCell, hp]

/-- Degenerate environment parse function used by witnesses: accepts no
text (every witness cell below is a parsed object or absent). -/
def parseNone : String → Option Json := fun _ => none

/-- Witness storage for the round trip: only the exercises collection is
present, holding a parsed (empty) object document. -/
def wSt1 : Storage := fun k => if k = kExercises then some (JDoc.jval (Json.obj [])) else none

theorem c1_backup_round_trip_witness :
    handleImportJson parseNone (handleExportJson wSt1) wSt1 kExercises = wSt1 kExercises
    ∧ handleImportJson parseNone (handleExportJson wSt1) wSt1 kWorkouts = wSt1 kWorkouts := by
  have h := c1_backup_round_trip parseNone wSt1
    (by
      intro k s hk
      by_cases hke : k = kExercises <;> simp [wSt1, hke] at hk)
    (by
      intro k _ s hk
      by_cases hke : k = kExercises <;> simp [wSt1, hke] at hk)
  exact ⟨h kExercises, h kWorkouts⟩

/-- The bare collection name the claim says the backup is keyed by. -/
def wBareKey : String := "workouts"

/-- Storage with every key absent. -/
def emptyStorage : Storage := fun _ => none

theorem c8_backup_key_contract_counterexample :
    wBareKey ∉ STORE_KEYS
    ∧ handleImportJson parseNone [(wBareKey, Json.obj [])] emptyStorage wBareKey = none
    ∧ kWorkouts ∈ STORE_KEYS
    ∧ handleExportJson wSt1 = [(kExercises, Json.obj [])]
    ∧ kExercises ≠ "exercises" := by
  refine ⟨by decide, rfl, by decide, rfl, by decide⟩

/-- C8 (amended): JSON backup key contract.  The exported backup document
is keyed by the five fixed localStorage store keys of `STORE_KEYS`
(`gymapp-workouts`, `gymapp-exercises`, `gymapp-program`, `gymapp-metrics`,
`gymapp-timer`) — not by the bare collection names — with each exported
value the collection's stored document taken verbatim from its cell (for a
zustand-persisted collection this document has the `\x7bstate, version: 0\x7d`
shape); import recognizes exactly these five keys, restores each
recognized key's cell verbatim, and ignores unrecognized keys. -/
theorem c8_backup_key_contract (parseJson : String → Option Json) :
    (∀ st : Storage, ∀ kv ∈ handleExportJson st, kv.1 ∈ STORE_KEYS
       ∧ (st kv.1 = some (JDoc.jval kv.2)
          ∨ ∃ s, kv.2 = Json.str s ∧ st kv.1 = some (JDoc.raw s)))
    ∧ (∀ (backup : List (String × Json)) (st : Storage),
         handleImportJson parseJson backup st
           = handleImportJson parseJson
               (backup.filter (fun kv => STORE_KEYS.contains kv.1)) st)
    ∧ (∀ (k : String) (v : Json) (st : Storage),
         STORE_KEYS.contains k = true → (∀ s, v ≠ Json.str s) →
         handleImportJson parseJson [(k, v)] st k = some (JDoc.jval v))
    ∧ (∀ (k : String) (v : Json) (st : Storage) (key : String),
         STORE_KEYS.contains k = false →
         handleImportJson parseJson [(k, v)] st key = st key) := by
  refine ⟨?_, ?_, ?_, ?_⟩
  · intro st kv hkv
    obtain ⟨h1, h2⟩ := handleExportJson_mem st kv hkv
    refine ⟨h1, ?_⟩
    rcases h2 with ha | ⟨s, h3, h4, _⟩
    · exact Or.inl ha
    · exact Or.inr ⟨s, h3, h4⟩
  · intro backup
    induction backup with
    | nil => intro st; rfl
    | cons kv rest ih =>
      intro st
      unfold handleImportJson
      rw [List.filter_cons]
      by_cases hc : STORE_KEYS.contains kv.1 = true
      · rw [if_pos hc]
        rw [List.foldl_cons, List.foldl_cons]
        exact ih _
      · rw [List.foldl_cons]
        rw [if_neg hc]
        rw [if_neg hc]
        exact ih st
  · intro k v st hc hv
    have hmem : k ∈ STORE_KEYS := by simpa using hc
    cases v with
    | str s => exact absurd rfl (hv s)
    | null => simp [handleImportJson, hmem, importWriteCell]
    | bool b => simp [handleImportJson, hmem, importWriteCell]
    | num q => simp [handleImportJson, hmem, importWriteCell]
    | arr elems => simp [handleImportJson, hmem, importWriteCell]
    | obj fields => simp [handleImportJson, hmem, importWriteCell]
  · intro k v st key hc
    have hmem : k ∉ STORE_KEYS := by simpa using hc
    simp [handleImportJson, hmem]

theorem c8_backup_key_contract_witness :
    kExercises ∈ STORE_KEYS
    ∧ handleImportJson parseNone [(kWorkouts, Json.obj [])] emptyStorage kWorkouts
        = some (JDoc.jval (Json.obj []))
    ∧ handleImportJson parseNone [(wBareKey, Json.null)] emptyStorage kExercises
        = emptyStorage kExercises := by
  have h := c8_backup_key_contract parseNone
  refine ⟨?_, ?_, ?_⟩
  · exact (h.1 wSt1 (kExercises, Json.obj []) (List.mem_singleton.2 rfl)).1
  · exact h.2.2.1 kWorkouts (Json.obj []) emptyStorage (by decide)
      (fun s hs => Json.noConfusion hs)
  · exact h.2.2.2 wBareKey Json.null emptyStorage kExercises (by decide)
